import Mathlib

/-!
Verification of the `Aspiration` application facade
(`src/aspirelt/core/app_stack.py`): middleware-stack assembly, the
exception-handler partition, configuration mutators and the decorator-style
registration methods, shallowly embedded in Lean 4.

Handlers and middleware factories are opaque to the assembly algorithm, so
they are modelled as atoms (`Nat` identifiers / names).  Python `dict`s are
modelled as insertion-ordered association lists with `dict`-assignment
semantics (`dictInsert`): assignment to an existing key updates it in place,
a fresh key is appended.
-/

namespace AspireLt

/-- A request/exception handler function; opaque to the assembly logic. -/
abbrev Handler := Nat

/-- An exception class used as a key of the handler table.  `base` is the
root class `Exception`; `custom n` is any other exception class. -/
inductive ExcClassId where
  | base
  | custom (n : Nat)
  deriving DecidableEq, Repr

/-- A key of the exception-handler table: an integer status code or an
exception class (`typing.Union[int, typing.Type[Exception]]`). -/
inductive ExcKey where
  | status (n : Nat)
  | exc (c : ExcClassId)
  deriving DecidableEq, Repr

/-- The exception-handler table `self.exception_handlers`, an
insertion-ordered dictionary. -/
abbrev Table := List (ExcKey × Handler)

/-- A middleware factory (the `cls` slot of a spec).  The two boundary
classes and `BaseHTTPMiddleware` are distinguished; user classes are atoms. -/
inductive MwClass where
  | serverErrorMiddleware
  | exceptionMiddleware
  | baseHTTPMiddleware
  | custom (n : Nat)
  deriving DecidableEq, Repr

/-- A value stored in a keyword-options dictionary. -/
inductive OptVal where
  | bool (b : Bool)
  | optHandler (h : Option Handler)
  | table (t : Table)
  | fn (f : Handler)
  | nat (n : Nat)
  | str (s : String)
  deriving DecidableEq, Repr

/-- Keyword options passed to a middleware factory. -/
abbrev Options := List (String × OptVal)

/-- Modelled from the spec: the `Middleware` value object (`aspire.core.Core`,
imported, not part of `src/`) pairs a factory with its options and an
`enabled` flag, and unpacks as the triple `(cls, options, enabled)` seen in
`build_middleware_stack`. -/
structure MiddlewareSpec where
  cls : MwClass
  options : Options
  enabled : Bool
  deriving DecidableEq, Repr

/-- Modelled from the spec: the `Middleware(cls, options=kwargs)` constructor
call used by `add_middleware`; a spec is enabled by default. -/
def mkMiddleware (cls : MwClass) (options : Options) : MiddlewareSpec :=
  ⟨cls, options, true⟩

/-- The built ASGI application: the router reference wrapped by finitely many
middleware layers (`app = cls(app=app, **options)` becomes `wrap`). -/
inductive ASGIApp where
  | router
  | wrap (cls : MwClass) (options : Options) (app : ASGIApp)
  deriving DecidableEq, Repr

/-- The layers of a built application, outermost first, as the pairs
(factory, options) that wrapped the router. -/
def ASGIApp.layers : ASGIApp → List (MwClass × Options)
  | .router => []
  | .wrap cls opts app => (cls, opts) :: app.layers

/-- Python `dict` assignment `d[k] = v` on an insertion-ordered dictionary:
an existing key keeps its position and gets the new value, a fresh key is
appended at the end. -/
def dictInsert {α β : Type} [BEq α] (d : List (α × β)) (k : α) (v : β) :
    List (α × β) :=
  if d.any (fun p => p.1 == k) then
    d.map (fun p => if p.1 == k then (p.1, v) else p)
  else
    d ++ [(k, v)]

/-- Python `dict(pairs)`: fold the pairs into an empty dictionary by
assignment. -/
def dictOfList {α β : Type} [BEq α] (l : List (α × β)) : List (α × β) :=
  l.foldl (fun d p => dictInsert d p.1 p.2) []

/-- Python `d.get(k)` / `d[k]`: the value at the first entry whose key
matches. -/
def dictGet {α β : Type} [BEq α] (d : List (α × β)) (k : α) : Option β :=
  match d with
  | [] => none
  | p :: d => if p.1 == k then some p.2 else dictGet d k

/-- The test `key in (500, Exception)` of `build_middleware_stack`. -/
def isCatchAll (k : ExcKey) : Bool :=
  k == ExcKey.status 500 || k == ExcKey.exc ExcClassId.base

/-- The partition loop of `build_middleware_stack`: starting from
`error_handler = None` and an empty typed table, each entry under `500` or
`Exception` overwrites `error_handler`, every other entry is assigned into
the typed table. -/
def partitionHandlers (eh : Table) : Option Handler × Table :=
  eh.foldl
    (fun acc kv =>
      if isCatchAll kv.1 then (some kv.2, acc.2)
      else (acc.1, dictInsert acc.2 kv.1 kv.2))
    (none, [])

/-- The options dictionary given to `ServerErrorMiddleware`. -/
def serverErrorOptions (handler : Option Handler) (debug : Bool) : Options :=
  [("handler", OptVal.optHandler handler), ("debug", OptVal.bool debug)]

/-- The options dictionary given to `ExceptionMiddleware`. -/
def exceptionOptions (handlers : Table) (debug : Bool) : Options :=
  [("handlers", OptVal.table handlers), ("debug", OptVal.bool debug)]

/-- The `server_errors` boundary spec of `build_middleware_stack`. -/
def serverErrorsSpec (error_handler : Option Handler) (debug : Bool) :
    MiddlewareSpec :=
  ⟨MwClass.serverErrorMiddleware, serverErrorOptions error_handler debug, true⟩

/-- The `exceptions` boundary spec of `build_middleware_stack`. -/
def exceptionsSpec (handlers : Table) (debug : Bool) : MiddlewareSpec :=
  ⟨MwClass.exceptionMiddleware, exceptionOptions handlers debug, true⟩

/-- The ordered list `[server_errors] + self.user_middleware + [exceptions]`
assembled by `build_middleware_stack`. -/
def stackList (debug : Bool) (eh : Table) (user : List MiddlewareSpec) :
    List MiddlewareSpec :=
  let p := partitionHandlers eh
  [serverErrorsSpec p.1 debug] ++ user ++ [exceptionsSpec p.2 debug]

/-- The wrapping loop of `build_middleware_stack`:
`for cls, options, enabled in reversed(middleware): if enabled: app = cls(app=app, **options)`. -/
def foldStack (middleware : List MiddlewareSpec) (app : ASGIApp) : ASGIApp :=
  middleware.reverse.foldl
    (fun a m => if m.enabled then ASGIApp.wrap m.cls m.options a else a) app

/-- `build_middleware_stack` on explicit configuration fields: partition the
handler table, assemble the ordered spec list, and fold it around the
router. -/
def buildStack (debug : Bool) (eh : Table) (user : List MiddlewareSpec) :
    ASGIApp :=
  foldStack (stackList debug eh user) ASGIApp.router

/-- The `Aspiration` application state: the debug flag, the router's route
tables (the router itself is an external collaborator, held by reference and
modelled only as far as the registration decorators touch it), the
exception-handler table, the user middleware list and the derived built
stack. -/
structure Aspiration where
  _debug : Bool
  router_routes : List (String × Handler)
  router_ws_routes : List (String × Handler)
  exception_handlers : Table
  user_middleware : List MiddlewareSpec
  middleware_stack : ASGIApp
  deriving DecidableEq, Repr

/-- The `debug` property getter. -/
def Aspiration.debug (self : Aspiration) : Bool :=
  self._debug

/-- `Aspiration.build_middleware_stack`, reading the current fields. -/
def Aspiration.build_middleware_stack (self : Aspiration) : ASGIApp :=
  buildStack self.debug self.exception_handlers self.user_middleware

/-- `Aspiration.__init__`: store the configuration (copying the handler dict
and the middleware list) and derive the initial built stack from it. -/
def Aspiration.init (debug : Bool) (routes : List (String × Handler))
    (middleware : List MiddlewareSpec) (exception_handlers : Table) :
    Aspiration :=
  let s : Aspiration :=
    { _debug := debug
      router_routes := routes
      router_ws_routes := []
      exception_handlers := dictOfList exception_handlers
      user_middleware := middleware
      middleware_stack := ASGIApp.router }
  { s with middleware_stack := s.build_middleware_stack }

/-- The `debug` property setter: store the flag, then rebuild the stack. -/
def Aspiration.set_debug (self : Aspiration) (value : Bool) : Aspiration :=
  let s := { self with _debug := value }
  { s with middleware_stack := s.build_middleware_stack }

/-- `Aspiration.add_middleware`: insert `Middleware(cls, options=kwargs)` at
the front of the user list, then rebuild the stack. -/
def Aspiration.add_middleware (self : Aspiration) (middleware_class : MwClass)
    (kwargs : Options) : Aspiration :=
  let s := { self with
    user_middleware := mkMiddleware middleware_class kwargs :: self.user_middleware }
  { s with middleware_stack := s.build_middleware_stack }

/-- `Aspiration.add_exception_handler`: assign into the handler dict, then
rebuild the stack. -/
def Aspiration.add_exception_handler (self : Aspiration) (key : ExcKey)
    (handler : Handler) : Aspiration :=
  let s := { self with
    exception_handlers := dictInsert self.exception_handlers key handler }
  { s with middleware_stack := s.build_middleware_stack }

/-- `Aspiration.exception_handler(key)`: the returned decorator registers the
function and hands it back. -/
def Aspiration.exception_handler (self : Aspiration) (key : ExcKey) :
    Handler → Aspiration × Handler :=
  fun func => (self.add_exception_handler key func, func)

/-- `Aspiration.route(path)`: the returned decorator registers the function
on the router (modelled from the spec: `Router.add_route` is external;
"register(path, handler) returns handler unchanged") and hands it back. -/
def Aspiration.route (self : Aspiration) (path : String) :
    Handler → Aspiration × Handler :=
  fun func =>
    ({ self with router_routes := self.router_routes ++ [(path, func)] }, func)

/-- `Aspiration.websocket_route(path)`: the returned decorator registers the
function on the router (modelled from the spec, as for `route`) and hands it
back. -/
def Aspiration.websocket_route (self : Aspiration) (path : String) :
    Handler → Aspiration × Handler :=
  fun func =>
    ({ self with
        router_ws_routes := self.router_ws_routes ++ [(path, func)] }, func)

/-- The configuration error raised by `Aspiration.middleware` for a kind
other than "http". -/
def middlewareTypeError : String :=
  "Currently only middleware(\"http\") is supported."

/-- `Aspiration.middleware(middleware_type)`: any kind other than "http"
raises before a decorator exists; for "http" the decorator adds
`BaseHTTPMiddleware` with `dispatch=func` and hands the function back. -/
def Aspiration.middleware (self : Aspiration) (middleware_type : String) :
    Except String (Handler → Aspiration × Handler) :=
  if ¬ middleware_type = "http" then
    Except.error middlewareTypeError
  else
    Except.ok fun func =>
      (self.add_middleware MwClass.baseHTTPMiddleware
        [("dispatch", OptVal.fn func)], func)

/-- A value stored in an ASGI scope dictionary; `appRef` stands for the
application object itself. -/
inductive ScopeVal where
  | appRef
  | str (s : String)
  | nat (n : Nat)
  deriving DecidableEq, Repr

/-- An ASGI scope: an insertion-ordered dictionary. -/
abbrev Scope := List (String × ScopeVal)

/-- The observable effect of one `Aspiration.__call__`: which ASGI app was
delegated to, with which scope, receive and send arguments. -/
structure CallRecord where
  target : ASGIApp
  scope : Scope
  receive : Nat
  send : Nat
  deriving DecidableEq, Repr

/-- `Aspiration.__call__`: set `scope["app"] = self`, then delegate scope,
receive and send to the built middleware stack. -/
def Aspiration.call (self : Aspiration) (scope : Scope)
    (receive send : Nat) : CallRecord :=
  ⟨self.middleware_stack, dictInsert scope "app" ScopeVal.appRef,
    receive, send⟩

/-- The stale-stack invariant of the spec: the stored stack is exactly what
`build_middleware_stack` yields on the current configuration. -/
def stackInvariant (s : Aspiration) : Prop :=
  s.middleware_stack = s.build_middleware_stack

/-- The spec's description of the extracted `errorHandler`: the handler of
the catch-all entry encountered last in the table's iteration order, if
any. -/
def specErrorHandler (eh : Table) : Option Handler :=
  ((eh.filter fun p => isCatchAll p.1).map Prod.snd).getLast?

/-- The spec's description of `typedHandlers`: the dictionary of all entries
whose key is not a catch-all key. -/
def specTypedHandlers (eh : Table) : Table :=
  dictOfList (eh.filter fun p => ! isCatchAll p.1)

/-- The (factory, options) pairs contributed by the enabled user middleware,
in list order. -/
def userLayers (mws : List MiddlewareSpec) : List (MwClass × Options) :=
  (mws.filter fun m => m.enabled).map fun m => (m.cls, m.options)

/-! ### Helper lemmas -/

theorem foldStack_eq_foldr (l : List MiddlewareSpec) (app : ASGIApp) :
    foldStack l app =
      l.foldr
        (fun m a => if m.enabled then ASGIApp.wrap m.cls m.options a else a)
        app := by
  simp [foldStack, List.foldl_reverse]

theorem foldStack_layers (l : List MiddlewareSpec) (app : ASGIApp) :
    (foldStack l app).layers =
      (l.filter fun m => m.enabled).map (fun m => (m.cls, m.options))
        ++ app.layers := by
  rw [foldStack_eq_foldr]
  induction l with
  | nil => rfl
  | cons m l ih =>
    cases hm : m.enabled <;>
      simp [List.filter_cons, hm, ASGIApp.layers, ih]

theorem buildStack_layers (d : Bool) (eh : Table) (user : List MiddlewareSpec) :
    (buildStack d eh user).layers =
      (MwClass.serverErrorMiddleware,
          serverErrorOptions (partitionHandlers eh).1 d) ::
        (userLayers user ++
          [(MwClass.exceptionMiddleware,
              exceptionOptions (partitionHandlers eh).2 d)]) := by
  simp [buildStack, stackList, foldStack_layers, userLayers, serverErrorsSpec,
    exceptionsSpec, ASGIApp.layers, List.filter_append, List.filter_cons]

theorem partition_foldl_fst (l : Table) (acc : Option Handler × Table) :
    (l.foldl
        (fun acc kv =>
          if isCatchAll kv.1 then (some kv.2, acc.2)
          else (acc.1, dictInsert acc.2 kv.1 kv.2))
        acc).1 =
      (((l.filter fun p => isCatchAll p.1).map Prod.snd).getLast?).elim
        acc.1 some := by
  induction l using List.reverseRecOn with
  | nil => simp
  | append_singleton l x ih =>
    rw [List.foldl_append]
    cases hx : isCatchAll x.1 <;>
      simp [List.filter_append, List.filter_cons, hx, List.getLast?_concat, ih]

theorem partition_foldl_snd (l : Table) (acc : Option Handler × Table) :
    (l.foldl
        (fun acc kv =>
          if isCatchAll kv.1 then (some kv.2, acc.2)
          else (acc.1, dictInsert acc.2 kv.1 kv.2))
        acc).2 =
      (l.filter fun p => ! isCatchAll p.1).foldl
        (fun d p => dictInsert d p.1 p.2) acc.2 := by
  induction l using List.reverseRecOn with
  | nil => simp
  | append_singleton l x ih =>
    rw [List.foldl_append]
    cases hx : isCatchAll x.1 <;>
      simp [List.filter_append, List.filter_cons, hx, List.foldl_append, ih]

theorem partitionHandlers_eq (eh : Table) :
    partitionHandlers eh = (specErrorHandler eh, specTypedHandlers eh) := by
  have h1 := partition_foldl_fst eh (none, [])
  have h2 := partition_foldl_snd eh (none, [])
  have helim : ∀ o : Option Handler, o.elim (none : Option Handler) some = o := by
    intro o; cases o <;> rfl
  refine Prod.ext_iff.mpr ⟨?_, ?_⟩
  · rw [partitionHandlers, h1, specErrorHandler]
    exact helim _
  · rw [partitionHandlers, h2, specTypedHandlers, dictOfList]

theorem mem_dictInsert_key {α β : Type} [BEq α] [LawfulBEq α]
    (P : α → Prop) (d : List (α × β)) (k : α) (v : β)
    (hd : ∀ p ∈ d, P p.1) (hk : P k) :
    ∀ q ∈ dictInsert d k v, P q.1 := by
  intro q hq
  unfold dictInsert at hq
  split at hq
  · rcases List.mem_map.mp hq with ⟨p, hp, rfl⟩
    by_cases h : (p.1 == k) = true <;> simp [h] <;> exact hd p hp
  · rcases List.mem_append.mp hq with h | h
    · exact hd q h
    · simp only [List.mem_singleton] at h
      subst h
      exact hk

theorem mem_foldl_dictInsert_key {α β : Type} [BEq α] [LawfulBEq α]
    (P : α → Prop) (l : List (α × β)) :
    ∀ t : List (α × β), (∀ p ∈ l, P p.1) → (∀ p ∈ t, P p.1) →
      ∀ q ∈ l.foldl (fun d p => dictInsert d p.1 p.2) t, P q.1 := by
  induction l with
  | nil => intro t _ ht; simpa using ht
  | cons x xs ih =>
    intro t hl ht
    rw [List.foldl_cons]
    exact ih (dictInsert t x.1 x.2)
      (fun p hp => hl p (List.mem_cons_of_mem x hp))
      (mem_dictInsert_key P t x.1 x.2 ht (hl x (List.mem_cons_self x xs)))

theorem specTyped_not_catchAll (eh : Table) :
    ∀ p ∈ specTypedHandlers eh, isCatchAll p.1 = false := by
  unfold specTypedHandlers dictOfList
  refine mem_foldl_dictInsert_key (fun k => isCatchAll k = false) _ [] ?_ ?_
  · intro p hp
    simpa using (List.mem_filter.mp hp).2
  · intro p hp
    simp at hp

theorem dictInsert_eq_append {α β : Type} [BEq α] [LawfulBEq α]
    (d : List (α × β)) (k : α) (v : β) (h : ∀ p ∈ d, p.1 ≠ k) :
    dictInsert d k v = d ++ [(k, v)] := by
  have h' : d.any (fun p => p.1 == k) = false := by
    rw [List.any_eq_false]
    intro p hp
    simpa using h p hp
  simp [dictInsert, h']

theorem dictOfList_append_of_nodup {α β : Type} [BEq α] [LawfulBEq α] :
    ∀ (l t : List (α × β)), ((t ++ l).map Prod.fst).Nodup →
      l.foldl (fun d p => dictInsert d p.1 p.2) t = t ++ l := by
  intro l
  induction l with
  | nil => intro t _; simp
  | cons x xs ih =>
    intro t hnd
    rw [List.foldl_cons]
    have hx : ∀ p ∈ t, p.1 ≠ x.1 := by
      intro p hp hc
      rw [List.map_append, List.nodup_append] at hnd
      refine hnd.2.2 (List.mem_map_of_mem Prod.fst hp) ?_
      rw [hc]
      exact List.mem_map_of_mem Prod.fst (List.mem_cons_self x xs)
    rw [dictInsert_eq_append t x.1 x.2 hx]
    have hcast : t ++ [(x.1, x.2)] = t ++ [x] := by simp
    rw [hcast, ih (t ++ [x]) (by simpa using hnd)]
    simp

theorem dictOfList_eq_self {α β : Type} [BEq α] [LawfulBEq α]
    (l : List (α × β)) (h : (l.map Prod.fst).Nodup) : dictOfList l = l := by
  simpa [dictOfList] using dictOfList_append_of_nodup l [] (by simpa using h)

theorem dictGet_map_update {α β : Type} [BEq α] [LawfulBEq α] (k : α) (v : β) :
    ∀ d : List (α × β), d.any (fun p => p.1 == k) = true →
      dictGet (d.map fun p => if p.1 == k then (p.1, v) else p) k = some v := by
  intro d
  induction d with
  | nil => simp
  | cons p d ih =>
    intro hany
    rw [List.map_cons]
    cases hp : (p.1 == k)
    · rw [show (if false = true then (p.1, v) else p) = p from rfl]
      rw [show dictGet (p :: List.map (fun p => if p.1 == k then (p.1, v) else p) d) k
            = dictGet (List.map (fun p => if p.1 == k then (p.1, v) else p) d) k from by
        simp [dictGet, hp]]
      refine ih ?_
      rw [List.any_cons, hp, Bool.false_or] at hany
      exact hany
    · simp [dictGet, hp]

theorem dictGet_append_fresh {α β : Type} [BEq α] [LawfulBEq α] (k : α) (v : β) :
    ∀ d : List (α × β), d.any (fun p => p.1 == k) = false →
      dictGet (d ++ [(k, v)]) k = some v := by
  intro d
  induction d with
  | nil => simp [dictGet]
  | cons p d ih =>
    intro hany
    rw [List.any_cons] at hany
    have hp : (p.1 == k) = false := by
      cases h : (p.1 == k)
      · rfl
      · rw [h] at hany
        simp_all
    rw [List.cons_append]
    rw [show dictGet (p :: (d ++ [(k, v)])) k = dictGet (d ++ [(k, v)]) k from by
      simp [dictGet, hp]]
    refine ih ?_
    rw [hp, Bool.false_or] at hany
    exact hany

theorem dictGet_insert_self {α β : Type} [BEq α] [LawfulBEq α]
    (d : List (α × β)) (k : α) (v : β) :
    dictGet (dictInsert d k v) k = some v := by
  unfold dictInsert
  cases hany : d.any (fun p => p.1 == k)
  · rw [if_neg (by simp [hany])]
    exact dictGet_append_fresh k v d hany
  · rw [if_pos (by simp [hany])]
    exact dictGet_map_update k v d hany

theorem dictGet_map_update_ne {α β : Type} [BEq α] [LawfulBEq α]
    (k k2 : α) (v : β) (hne : k2 ≠ k) :
    ∀ d : List (α × β),
      dictGet (d.map fun p => if p.1 == k then (p.1, v) else p) k2 =
        dictGet d k2 := by
  intro d
  induction d with
  | nil => simp
  | cons p d ih =>
    rw [List.map_cons]
    cases hp2 : (p.1 == k2)
    · cases hpk : (p.1 == k) <;> simp [dictGet, hp2, hpk, ih]
    · have hpk : (p.1 == k) = false := by
        have h : p.1 = k2 := eq_of_beq hp2
        simp [h, hne]
      simp [dictGet, hp2, hpk]

theorem dictGet_append_ne {α β : Type} [BEq α] [LawfulBEq α]
    (k k2 : α) (v : β) (hne : k2 ≠ k) :
    ∀ d : List (α × β),
      dictGet (d ++ [(k, v)]) k2 = dictGet d k2 := by
  intro d
  induction d with
  | nil =>
    have h : (k == k2) = false := by
      cases hc : (k == k2)
      · rfl
      · exact absurd (eq_of_beq hc).symm hne
    simp [dictGet, h]
  | cons p d ih =>
    rw [List.cons_append]
    cases hp2 : (p.1 == k2) <;> simp [dictGet, hp2, ih]

theorem dictGet_insert_ne {α β : Type} [BEq α] [LawfulBEq α]
    (d : List (α × β)) (k k2 : α) (v : β) (hne : k2 ≠ k) :
    dictGet (dictInsert d k v) k2 = dictGet d k2 := by
  unfold dictInsert
  cases hany : d.any (fun p => p.1 == k)
  · rw [if_neg (by simp [hany])]
    exact dictGet_append_ne k k2 v hne d
  · rw [if_pos (by simp [hany])]
    exact dictGet_map_update_ne k k2 v hne d

/-! ### Concrete configurations used by the witnesses -/

/-- An enabled user middleware spec. -/
def mw1 : MiddlewareSpec := ⟨MwClass.custom 1, [], true⟩

/-- An enabled user middleware spec. -/
def mw2 : MiddlewareSpec := ⟨MwClass.custom 2, [], true⟩

/-- An enabled user middleware spec. -/
def mw3 : MiddlewareSpec := ⟨MwClass.custom 3, [], true⟩

/-- A disabled user middleware spec. -/
def mwOff : MiddlewareSpec := ⟨MwClass.custom 9, [], false⟩

/-- An application with empty configuration. -/
def app0 : Aspiration := Aspiration.init false [] [] []

/-- An application whose user middleware list is `[mw1, mw2]`. -/
def app2 : Aspiration := Aspiration.init false [] [mw1, mw2] []

/-- A handler table with one typed entry, a 500 entry and a custom-class
entry. -/
def eh4 : Table :=
  [(ExcKey.status 404, 7), (ExcKey.status 500, 8),
    (ExcKey.exc (ExcClassId.custom 1), 9)]

/-- A handler table registering handlers under both catch-all keys. -/
def eh10 : Table :=
  [(ExcKey.status 404, 3), (ExcKey.status 500, 1),
    (ExcKey.exc ExcClassId.base, 2)]

/-- A small request scope. -/
def scope0 : Scope :=
  [("type", ScopeVal.str "http"), ("path", ScopeVal.str "x")]

/-! ### The claims -/

/-- C1: `build_middleware_stack` assembles the ordered list
`[server-error layer] + user middleware (in list order) + [typed-exception
layer]` and folds it right to left starting from the router, so for any user
middleware list `[m1, m2, m3]` (all enabled) the built stack nests
server-error → m1 → m2 → m3 → typed-exception → router, the first list
element outermost and the router innermost. -/
theorem build_stack_order_three (d : Bool) (eh : Table)
    (m1 m2 m3 : MiddlewareSpec) (h1 : m1.enabled = true)
    (h2 : m2.enabled = true) (h3 : m3.enabled = true) :
    stackList d eh [m1, m2, m3] =
      serverErrorsSpec (partitionHandlers eh).1 d ::
        ([m1, m2, m3] ++ [exceptionsSpec (partitionHandlers eh).2 d]) ∧
    buildStack d eh [m1, m2, m3] =
      ASGIApp.wrap MwClass.serverErrorMiddleware
          (serverErrorOptions (partitionHandlers eh).1 d)
        (ASGIApp.wrap m1.cls m1.options
          (ASGIApp.wrap m2.cls m2.options
            (ASGIApp.wrap m3.cls m3.options
              (ASGIApp.wrap MwClass.exceptionMiddleware
                  (exceptionOptions (partitionHandlers eh).2 d)
                ASGIApp.router)))) := by
  constructor
  · rfl
  · simp [buildStack, stackList, foldStack_eq_foldr, serverErrorsSpec,
      exceptionsSpec, h1, h2, h3]

theorem build_stack_order_three_witness :
    buildStack false [] [mw1, mw2, mw3] =
      ASGIApp.wrap MwClass.serverErrorMiddleware (serverErrorOptions none false)
        (ASGIApp.wrap (MwClass.custom 1) []
          (ASGIApp.wrap (MwClass.custom 2) []
            (ASGIApp.wrap (MwClass.custom 3) []
              (ASGIApp.wrap MwClass.exceptionMiddleware
                  (exceptionOptions [] false)
                ASGIApp.router)))) :=
  (build_stack_order_three false [] mw1 mw2 mw3 rfl rfl rfl).2

/-- C2: after the constructor and after each of the mutators (debug setter,
`add_middleware`, `add_exception_handler`) the stored `middleware_stack`
equals `build_middleware_stack` of the current configuration: no stale built
stack is observable. -/
theorem mutators_preserve_stack_invariant (d v : Bool)
    (routes : List (String × Handler)) (mws : List MiddlewareSpec)
    (eh : Table) (s : Aspiration) (cls : MwClass) (kwargs : Options)
    (k : ExcKey) (h : Handler) :
    stackInvariant (Aspiration.init d routes mws eh) ∧
    stackInvariant (s.set_debug v) ∧
    stackInvariant (s.add_middleware cls kwargs) ∧
    stackInvariant (s.add_exception_handler k h) :=
  ⟨rfl, rfl, rfl, rfl⟩

/-- C3: `add_middleware` always inserts the new spec at the front of the
user middleware list; adding `m4` to a stack already containing `[m1, m2]`
yields the request order m4 → m1 → m2 → router, with `m4` outermost among
user middleware, inside only the fixed server-error layer. -/
theorem add_middleware_prepends (s : Aspiration) (cls : MwClass)
    (kwargs : Options) (m1 m2 : MiddlewareSpec)
    (hu : s.user_middleware = [m1, m2]) (h1 : m1.enabled = true)
    (h2 : m2.enabled = true) :
    (s.add_middleware cls kwargs).user_middleware =
      mkMiddleware cls kwargs :: [m1, m2] ∧
    (s.add_middleware cls kwargs).middleware_stack =
      ASGIApp.wrap MwClass.serverErrorMiddleware
          (serverErrorOptions (partitionHandlers s.exception_handlers).1
            s.debug)
        (ASGIApp.wrap cls kwargs
          (ASGIApp.wrap m1.cls m1.options
            (ASGIApp.wrap m2.cls m2.options
              (ASGIApp.wrap MwClass.exceptionMiddleware
                  (exceptionOptions
                    (partitionHandlers s.exception_handlers).2 s.debug)
                ASGIApp.router)))) := by
  constructor
  · simp [Aspiration.add_middleware, hu]
  · simp [Aspiration.add_middleware, Aspiration.build_middleware_stack,
      Aspiration.debug, buildStack, stackList, foldStack_eq_foldr, hu,
      serverErrorsSpec, exceptionsSpec, mkMiddleware, h1, h2]

theorem add_middleware_prepends_witness :
    (app2.add_middleware (MwClass.custom 4) []).user_middleware =
      mkMiddleware (MwClass.custom 4) [] :: [mw1, mw2] :=
  (add_middleware_prepends app2 (MwClass.custom 4) [] mw1 mw2 rfl rfl rfl).1

/-- C4: `build_middleware_stack` partitions the handler table: the handler
of the last catch-all entry becomes the `errorHandler` given to the
outermost server-error layer, the remaining (non-catch-all) entries form the
typed table given to the typed-exception layer, no catch-all key survives in
the typed table, and (for a duplicate-free table, as a Python `dict` always
is) every entry under a non-catch-all key stays. -/
theorem partition_catch_all_handlers (d : Bool) (eh : Table)
    (user : List MiddlewareSpec) :
    stackList d eh user =
      serverErrorsSpec (specErrorHandler eh) d ::
        (user ++ [exceptionsSpec (specTypedHandlers eh) d]) ∧
    (∀ p ∈ (partitionHandlers eh).2, isCatchAll p.1 = false) ∧
    ((eh.map Prod.fst).Nodup →
      (partitionHandlers eh).2 = eh.filter (fun p => ! isCatchAll p.1)) := by
  refine ⟨?_, ?_, ?_⟩
  · simp [stackList, partitionHandlers_eq]
  · rw [partitionHandlers_eq]
    exact specTyped_not_catchAll eh
  · intro hnd
    rw [partitionHandlers_eq]
    unfold specTypedHandlers
    exact dictOfList_eq_self _
      (hnd.sublist ((List.filter_sublist eh).map Prod.fst))

theorem partition_catch_all_handlers_witness :
    (partitionHandlers eh4).2 = eh4.filter (fun p => ! isCatchAll p.1) :=
  (partition_catch_all_handlers true eh4 []).2.2 (by decide)

/-- C5: a spec whose `enabled` flag is false contributes no wrapping: the
stack built with the disabled spec present equals the stack built with it
removed, the other layers and their order untouched. -/
theorem disabled_spec_is_identity (d : Bool) (eh : Table)
    (pre post : List MiddlewareSpec) (m : MiddlewareSpec)
    (hm : m.enabled = false) :
    buildStack d eh (pre ++ m :: post) = buildStack d eh (pre ++ post) := by
  simp [buildStack, stackList, foldStack_eq_foldr, List.foldr_append, hm]

theorem disabled_spec_is_identity_witness :
    buildStack false [] [mwOff] = buildStack false [] [] :=
  disabled_spec_is_identity false [] [] [] mwOff rfl

/-- C6 (counterexample): the typed-exception layer's configuration options
do change when the debug flag is toggled from false to true — the `debug`
option passed to `ExceptionMiddleware` flips — so the rebuilt stack's
typed-exception layer is not identical to the one built with
`debug = false`. -/
theorem debug_toggle_changes_exception_options :
    ¬ (((Aspiration.init false [] [] []).set_debug
          true).middleware_stack.layers.getLast? =
        (Aspiration.init false [] [] []).middleware_stack.layers.getLast?) := by
  decide

/-- C6 (amended): toggling debug from false to true changes only the `debug`
option handed to the two fixed boundary layers; the user middleware layers
with their options, the extracted error handler, the typed-handler table and
the ordering of all layers are identical between the two builds. -/
theorem debug_toggle_frame (eh : Table) (mws : List MiddlewareSpec) :
    (buildStack true eh mws).layers =
      (MwClass.serverErrorMiddleware,
          serverErrorOptions (specErrorHandler eh) true) ::
        (userLayers mws ++
          [(MwClass.exceptionMiddleware,
              exceptionOptions (specTypedHandlers eh) true)]) ∧
    (buildStack false eh mws).layers =
      (MwClass.serverErrorMiddleware,
          serverErrorOptions (specErrorHandler eh) false) ::
        (userLayers mws ++
          [(MwClass.exceptionMiddleware,
              exceptionOptions (specTypedHandlers eh) false)]) := by
  constructor <;> simp [buildStack_layers, partitionHandlers_eq]

/-- C7: `middleware(middleware_type)` with any kind other than "http" fails
immediately with the configuration error, before any decorator exists; with
"http" it returns the decorator that registers the function as
`BaseHTTPMiddleware` with `dispatch=func`. -/
theorem middleware_type_guard (s : Aspiration) (t : String) (f : Handler) :
    (t ≠ "http" → s.middleware t = Except.error middlewareTypeError) ∧
    ((s.middleware "http").map fun dec => dec f) =
      Except.ok
        (s.add_middleware MwClass.baseHTTPMiddleware
            [("dispatch", OptVal.fn f)], f) := by
  constructor
  · intro ht
    simp [Aspiration.middleware, ht]
  · rfl

theorem middleware_type_guard_witness :
    app0.middleware "websocket" = Except.error middlewareTypeError :=
  (middleware_type_guard app0 "websocket" 0).1 (by decide)

/-- C8: every decorator-style registration method — `route`,
`websocket_route`, `exception_handler`, and the decorator returned by
`middleware("http")` — hands the decorated handler back unchanged;
registration is only a side effect. -/
theorem decorators_return_handler_unchanged (s : Aspiration)
    (path path2 : String) (k : ExcKey) (f : Handler) :
    (s.route path f).2 = f ∧
    (s.websocket_route path2 f).2 = f ∧
    (s.exception_handler k f).2 = f ∧
    ((s.middleware "http").map fun dec => (dec f).2) = Except.ok f :=
  ⟨rfl, rfl, rfl, rfl⟩

/-- C9: `__call__` stores the application into the request scope under the
key "app" and delegates that scope together with the unchanged receive and
send to the built middleware stack; every other scope key is left as it
was. -/
theorem call_injects_app_scope (s : Aspiration) (scope : Scope)
    (receive send : Nat) :
    s.call scope receive send =
      ⟨s.middleware_stack, dictInsert scope "app" ScopeVal.appRef,
        receive, send⟩ ∧
    dictGet (s.call scope receive send).scope "app" = some ScopeVal.appRef ∧
    (∀ k2 : String, k2 ≠ "app" →
      dictGet (s.call scope receive send).scope k2 = dictGet scope k2) := by
  refine ⟨rfl, ?_, ?_⟩
  · exact dictGet_insert_self scope "app" ScopeVal.appRef
  · intro k2 hk
    exact dictGet_insert_ne scope "app" k2 ScopeVal.appRef hk

theorem call_injects_app_scope_witness :
    dictGet ((app0.call scope0 1 2)).scope "path" = dictGet scope0 "path" :=
  (call_injects_app_scope app0 scope0 1 2).2.2 "path" (by decide)

/-- C10: both the status code 500 and the `Exception` class are treated as
the catch-all key; when handlers are registered under both, neither key
survives in the typed-handler table and only the handler of the entry
encountered last in the table's iteration order becomes the top-level error
handler, the other being dropped. -/
theorem dual_catch_all_keys (eh : Table) (v1 v2 : Handler)
    (hf : eh.filter (fun p => isCatchAll p.1) =
      [(ExcKey.status 500, v1), (ExcKey.exc ExcClassId.base, v2)]) :
    (partitionHandlers eh).1 = some v2 ∧
    (∀ p ∈ (partitionHandlers eh).2,
      p.1 ≠ ExcKey.status 500 ∧ p.1 ≠ ExcKey.exc ExcClassId.base) ∧
    isCatchAll (ExcKey.status 500) = true ∧
    isCatchAll (ExcKey.exc ExcClassId.base) = true := by
  refine ⟨?_, ?_, rfl, rfl⟩
  · rw [partitionHandlers_eq]
    simp [specErrorHandler, hf]
  · intro p hp
    rw [partitionHandlers_eq] at hp
    have hcc := specTyped_not_catchAll eh p hp
    refine ⟨fun hc => ?_, fun hc => ?_⟩ <;>
      · rw [hc] at hcc
        simp [isCatchAll] at hcc

theorem dual_catch_all_keys_witness :
    (partitionHandlers eh10).1 = some 2 :=
  (dual_catch_all_keys eh10 1 2 (by decide)).1

end AspireLt
